import Mathlib

/-!
Shallow embedding of the matchmaking service
(`backend/services/matchmaking_service.py` of The-Gambit-Engine) and
verification of the specified properties.

Modelling choices:
* Python `dict` (insertion-ordered, unique keys) is an association list;
  assignment to an existing key updates the value in place (keeping the
  entry's position), assignment to a fresh key appends.
* Python floats that hold wall-clock durations and the `elo / 100`
  quotients are modelled as exact rationals; `round` is round-half-to-even
  as in Python, `int(...)` truncates toward zero, `//` is floor division.
* Wall-clock time is passed explicitly: enqueue operations receive the
  current time `now : ℚ` (seconds), and a pairing tick receives the time
  at which it runs.  `time.time() * 1000` for game-id generation is an
  explicit millisecond argument.
-/

namespace GambitEngine

/-- Opponent type enum (`models/schemas.py`: HUMAN, AI, ANY). -/
inductive OpponentType
  | human
  | ai
  | any
deriving DecidableEq

/-- A player waiting in a matchmaking queue (dataclass `QueuedPlayer`). -/
structure QueuedPlayer where
  player_address : String
  elo : ℤ
  preferred_opponent : OpponentType
  queued_at : ℚ
  min_elo : ℤ
  max_elo : ℤ
deriving DecidableEq

/-- The enqueue request as consumed by the service.  The Pydantic schema
declares `player`, `preferred_opponent`, `min_elo`, `max_elo`; the service
additionally reads `request.player_elo`, embedded here as a field. -/
structure MatchmakingRequest where
  player : String
  player_elo : ℤ
  preferred_opponent : OpponentType
  min_elo : ℤ
  max_elo : ℤ
deriving DecidableEq

/-- Queue status returned by `queue_player` (`models/schemas.py`). -/
structure QueueStatus where
  is_queued : Bool
  queue_position : ℤ
  estimated_wait_seconds : ℤ
  preferred_opponent : OpponentType
deriving DecidableEq

/-- Result of a matchmaking attempt (dataclass `MatchResult`). -/
structure MatchResult where
  player1 : String
  player2 : String
  player1_elo : ℤ
  player2_elo : ℤ
  game_id : ℕ
  is_bot_match : Bool
  bot_level : Option ℤ
deriving DecidableEq

/-- Floor of a rational, by explicitly computable floor division (kernel
reducible, unlike the `FloorRing` projection). -/
def rat_floor (q : ℚ) : ℤ := q.num.fdiv q.den

/-- Ceiling of a rational, computably. -/
def rat_ceil (q : ℚ) : ℤ := -rat_floor (-q)

/-- Subtraction of rationals by the explicit cross-multiplication formula
(kernel reducible; the library's `Rat.sub` is irreducible). -/
def rat_sub (a b : ℚ) : ℚ := mkRat (a.num * b.den - b.num * a.den) (a.den * b.den)

/-- Division of a rational by 10, computably. -/
def rat_div10 (a : ℚ) : ℚ := Rat.divInt a.num (a.den * 10)

/-- Division of an integer by 100 as a rational, computably. -/
def rat_div100 (n : ℤ) : ℚ := Rat.divInt n 100

/-- Python `round` on an exact rational: nearest integer, ties to even. -/
def py_round (q : ℚ) : ℤ :=
  if rat_sub q (rat_floor q) < mkRat 1 2 then rat_floor q
  else if mkRat 1 2 < rat_sub q (rat_floor q) then rat_floor q + 1
  else if rat_floor q % 2 = 0 then rat_floor q else rat_floor q + 1

/-- Python `int(...)` on a rational: truncation toward zero. -/
def py_int (q : ℚ) : ℤ := if 0 ≤ q then rat_floor q else rat_ceil q

/-- `MatchmakingService.ELO_RANGE`. -/
def ELO_RANGE : ℤ := 200

/-- `MatchmakingService.MAX_WAIT_EXPAND_TIME` (seconds). -/
def MAX_WAIT_EXPAND_TIME : ℚ := 30

/-- `MatchmakingService.ELO_EXPAND_RATE`. -/
def ELO_EXPAND_RATE : ℤ := 50

/-- ELO bucket key: `round(player_elo / 100) * 100` (`queue_player`,
also recomputed at removal time in `_match_players`). -/
def elo_bucket (elo : ℤ) : ℤ := py_round (rat_div100 elo) * 100

/-- Expanded ELO range computed per waiter inside `_match_players`:
start from `ELO_RANGE`; if `wait_time > MAX_WAIT_EXPAND_TIME` add
`int((wait_time - MAX_WAIT_EXPAND_TIME) / 10) * ELO_EXPAND_RATE`. -/
def expanded_range (wait_time : ℚ) : ℤ :=
  if MAX_WAIT_EXPAND_TIME < wait_time then
    ELO_RANGE + py_int (rat_div10 (rat_sub wait_time MAX_WAIT_EXPAND_TIME)) * ELO_EXPAND_RATE
  else ELO_RANGE

/-- Modelled from the spec: the expansion formula
`base_range + max(0, floor((wait_time − expand_threshold) / expand_interval)) * expand_step`
with constants 200, 30, 10, 50. -/
def spec_expanded_range (wait_time : ℚ) : ℤ :=
  200 + max 0 ⌊(wait_time - 30) / 10⌋ * 50

/-- `_find_bot_level`: `max(1, min(10, (player_elo - 200) // 200 + 1))`;
Python `//` is floor division, hence `Int.fdiv`. -/
def find_bot_level (player_elo : ℤ) : ℤ :=
  max 1 (min 10 ((player_elo - 200).fdiv 200 + 1))

/-- Modelled from the spec: `clamp(lo, hi, x)`. -/
def clamp_spec (lo hi x : ℤ) : ℤ := max lo (min hi x)

/-- A bot difficulty configuration (`_init_bot_configs` table rows). -/
structure BotConfig where
  elo : ℤ
  aggression : ℤ
  error_rate : ℤ
deriving DecidableEq

/-- `_init_bot_configs`: the static level → configuration table. -/
def bot_configs : List (ℤ × BotConfig) :=
  [ (1, ⟨400, 10, 30⟩), (2, ⟨600, 15, 25⟩), (3, ⟨800, 20, 20⟩),
    (4, ⟨1000, 25, 15⟩), (5, ⟨1200, 30, 12⟩), (6, ⟨1400, 35, 10⟩),
    (7, ⟨1600, 40, 8⟩), (8, ⟨1800, 45, 6⟩), (9, ⟨2000, 50, 4⟩),
    (10, ⟨2200, 55, 2⟩) ]

/-- Association-list lookup, mirroring Python `d[k]` / `k in d`. -/
def dict_get? {α β : Type} [DecidableEq α] (d : List (α × β)) (k : α) : Option β :=
  (d.find? (fun p => decide (p.1 = k))).map Prod.snd

/-- Python `d[k] = v`: update in place if the key exists (entry keeps its
position in the insertion order), otherwise append at the end. -/
def dict_insert {α β : Type} [DecidableEq α] (d : List (α × β)) (k : α) (v : β) :
    List (α × β) :=
  if (dict_get? d k).isSome then
    d.map (fun p => if p.1 = k then (k, v) else p)
  else d ++ [(k, v)]

/-- Python `d.pop(k, None)` / `del d[k]`: drop the entry with key `k`. -/
def dict_pop {α β : Type} [DecidableEq α] (d : List (α × β)) (k : α) :
    List (α × β) :=
  d.filter (fun p => decide (p.1 ≠ k))

/-- Mutable state of `MatchmakingService`: the three per-category queues
(`elo bucket → QueuedPlayer`), the reverse index `player_lookup`
(`address → elo bucket`), and `active_games` (`game id → MatchResult`). -/
structure ServiceState where
  human_queue : List (ℤ × QueuedPlayer)
  ai_queue : List (ℤ × QueuedPlayer)
  any_queue : List (ℤ × QueuedPlayer)
  player_lookup : List (String × ℤ)
  active_games : List (ℕ × MatchResult)
deriving DecidableEq

/-- The freshly constructed service: all containers empty. -/
def empty_state : ServiceState := ⟨[], [], [], [], []⟩

/-- `_get_queue`: select the queue for an opponent type. -/
def get_queue (s : ServiceState) (t : OpponentType) : List (ℤ × QueuedPlayer) :=
  match t with
  | .human => s.human_queue
  | .ai => s.ai_queue
  | .any => s.any_queue

/-- Replace the queue selected by `_get_queue` (mutation of the field). -/
def set_queue (s : ServiceState) (t : OpponentType) (q : List (ℤ × QueuedPlayer)) :
    ServiceState :=
  match t with
  | .human => { s with human_queue := q }
  | .ai => { s with ai_queue := q }
  | .any => { s with any_queue := q }

/-- `_get_queue_position`: 1 + number of same-queue entries whose bucket key
is within `ELO_RANGE` of the player's elo and which enqueued strictly
earlier. -/
def get_queue_position (s : ServiceState) (player : QueuedPlayer) : ℤ :=
  1 + ((get_queue s player.preferred_opponent).filter
    (fun p => decide (|p.1 - player.elo| ≤ ELO_RANGE ∧
      p.2.queued_at < player.queued_at))).length

/-- `_estimate_wait_time`: step function of the selected queue's size. -/
def estimate_wait_time (s : ServiceState) (t : OpponentType) : ℤ :=
  if (get_queue s t).length = 0 then 5
  else if (get_queue s t).length < 5 then 15
  else if (get_queue s t).length < 10 then 30
  else 60

/-- `queue_player`: insert the request's player into the queue chosen by its
preference under the rounded elo bucket, record the bucket in
`player_lookup`, and report a `QueueStatus` computed on the new state.
There is no failure path: an occupied bucket or an already-queued identity
is silently overwritten. -/
def queue_player (s : ServiceState) (req : MatchmakingRequest) (now : ℚ) :
    ServiceState × QueueStatus :=
  let bucket := elo_bucket req.player_elo
  let player : QueuedPlayer :=
    ⟨req.player, req.player_elo, req.preferred_opponent, now, req.min_elo, req.max_elo⟩
  let s1 := set_queue s req.preferred_opponent
    (dict_insert (get_queue s req.preferred_opponent) bucket player)
  let s2 := { s1 with player_lookup := dict_insert s1.player_lookup req.player bucket }
  (s2, ⟨true, get_queue_position s2 player,
        estimate_wait_time s2 req.preferred_opponent, req.preferred_opponent⟩)

/-- `cancel_queue`: if the address is unknown return `false`; otherwise pop
the recorded bucket key from all three queues, delete the address from
`player_lookup`, and return `true`. -/
def cancel_queue (s : ServiceState) (player_address : String) :
    ServiceState × Bool :=
  match dict_get? s.player_lookup player_address with
  | none => (s, false)
  | some bucket =>
    ({ s with
        human_queue := dict_pop s.human_queue bucket,
        ai_queue := dict_pop s.ai_queue bucket,
        any_queue := dict_pop s.any_queue bucket,
        player_lookup := dict_pop s.player_lookup player_address }, true)

/-- `_generate_game_id`: `int(time.time() * 1000) % 10_000_000_000`, with
the wall clock in milliseconds passed explicitly. -/
def generate_game_id (now_ms : ℕ) : ℕ := now_ms % 10000000000

/-- `_create_match`: allocate a game id from the clock, give the white side
to the higher-or-equal elo player, and write the `MatchResult` into
`active_games` under the id (a `dict` assignment: an existing id is
silently replaced). -/
def create_match (games : List (ℕ × MatchResult)) (player1 player2 : QueuedPlayer)
    (is_bot : Bool) (bot_level : Option ℤ) (now_ms : ℕ) : List (ℕ × MatchResult) :=
  let game_id := generate_game_id now_ms
  let white_player :=
    if player2.elo ≤ player1.elo then player1.player_address else player2.player_address
  let black_player :=
    if player2.elo ≤ player1.elo then player2.player_address else player1.player_address
  let p1_elo := if white_player = player1.player_address then player1.elo else player2.elo
  let p2_elo := if black_player = player2.player_address then player2.elo else player1.elo
  dict_insert games game_id
    ⟨white_player, black_player, p1_elo, p2_elo, game_id, is_bot, bot_level⟩

/-- `_create_bot_match`: look the computed bot level up in `bot_configs`
(`self.bot_configs[bot_level]` raises `KeyError` when absent, embedded as
`none`), then record a bot `MatchResult` with the player as white. -/
def create_bot_match (games : List (ℕ × MatchResult)) (player : QueuedPlayer)
    (now_ms : ℕ) : Option (List (ℕ × MatchResult)) :=
  match dict_get? bot_configs (find_bot_level player.elo) with
  | none => none
  | some cfg =>
    some (dict_insert games (generate_game_id now_ms)
      ⟨player.player_address, "bot_" ++ toString (find_bot_level player.elo),
       player.elo, cfg.elo, generate_game_id now_ms, true,
       some (find_bot_level player.elo)⟩)

/-- A pairing decided by one invocation of `_match_players`: either two
human waiters handed to `_create_match`, or one waiter handed to
`_create_bot_match` with the computed bot level. -/
inductive Decision
  | humanPair : QueuedPlayer → QueuedPlayer → Decision
  | botPair : QueuedPlayer → ℤ → Decision
deriving DecidableEq

/-- The queued identities a decision consumes (the bot side of a
`botPair` is synthetic, not a queued waiter). -/
def consumed_waiters : List Decision → List QueuedPlayer
  | [] => []
  | .humanPair p q :: ds => p :: q :: consumed_waiters ds
  | .botPair p _ :: ds => p :: consumed_waiters ds

/-- The partner test of the inner scan in `_match_players`: skip `p`
itself and anyone in `to_remove`, accept the first waiter within `p`'s
expanded elo range. -/
def partner_ok (now : ℚ) (to_remove : List QueuedPlayer) (p q : QueuedPlayer) : Bool :=
  decide (¬ q = p ∧ ¬ q ∈ to_remove ∧
    |q.elo - p.elo| ≤ expanded_range (rat_sub now p.queued_at))

/-- The loop of `_match_players` over the snapshot `L = list(queue.items())`
(values only; the key is unused by the loop body).  `to_remove` is the
per-tick consumed set, `acc` the decisions made so far.  A waiter already
consumed is skipped; otherwise the first acceptable partner in `L` is
paired; failing that, a waiter of the ANY queue that has waited more than
10 seconds falls back to a bot match. -/
def match_players_go (now : ℚ) (queue_type : OpponentType) (L : List QueuedPlayer) :
    List QueuedPlayer → List QueuedPlayer → List Decision →
    List QueuedPlayer × List Decision
  | [], to_remove, acc => (to_remove, acc)
  | p :: rest, to_remove, acc =>
    if p ∈ to_remove then match_players_go now queue_type L rest to_remove acc
    else
      match L.find? (partner_ok now to_remove p) with
      | some q =>
        match_players_go now queue_type L rest (to_remove ++ [p, q])
          (acc ++ [Decision.humanPair p q])
      | none =>
        if queue_type = OpponentType.any ∧ 10 < rat_sub now p.queued_at then
          match_players_go now queue_type L rest (to_remove ++ [p])
            (acc ++ [Decision.botPair p (find_bot_level p.elo)])
        else match_players_go now queue_type L rest to_remove acc

/-- `_match_players` on one queue: run the loop over the snapshot, then
remove every consumed waiter from the queue (under its recomputed elo
bucket) and from `player_lookup`.  Writing the decisions into
`active_games` happens in `_create_match` / `_create_bot_match`, which do
not feed back into the loop; the decisions are returned here. -/
def match_players (now : ℚ) (queue_type : OpponentType)
    (queue : List (ℤ × QueuedPlayer)) (lookup : List (String × ℤ)) :
    List (ℤ × QueuedPlayer) × List (String × ℤ) × List Decision :=
  ((match_players_go now queue_type (queue.map Prod.snd) (queue.map Prod.snd) [] []).1.foldl
      (fun q p => dict_pop q (elo_bucket p.elo)) queue,
   (match_players_go now queue_type (queue.map Prod.snd) (queue.map Prod.snd) [] []).1.foldl
      (fun lk p => dict_pop lk p.player_address) lookup,
   (match_players_go now queue_type (queue.map Prod.snd) (queue.map Prod.snd) [] []).2)

/-- Identities referenced by a decision, as `_create_match` /
`_create_bot_match` would write them into the `MatchResult`. -/
def decision_addrs : Decision → List String
  | .humanPair p q => [p.player_address, q.player_address]
  | .botPair p l => [p.player_address, "bot_" ++ toString l]

/-! Concrete scenario states used by the individual claims. -/

/-- State after `queue_player("playerA", 1000, HUMAN)` at `t = 0` followed
by `queue_player("playerB", 1040, HUMAN)` at `t = 1`; both ratings round
to bucket 1000. -/
def state_c1 : ServiceState :=
  (queue_player (queue_player empty_state ⟨"playerA", 1000, OpponentType.human, 0, 3000⟩ 0).1
    ⟨"playerB", 1040, OpponentType.human, 0, 3000⟩ 1).1

/-- The enqueue of `p2` (rating 1000, same bucket as `p1`) on top of the
state holding `p1` (rating 1000, HUMAN, `t = 0`), evaluated at `t = 1`. -/
def enqueue_c2 : ServiceState × QueueStatus :=
  queue_player (queue_player empty_state ⟨"p1", 1000, OpponentType.human, 0, 3000⟩ 0).1
    ⟨"p2", 1000, OpponentType.human, 0, 3000⟩ 1

/-- State with the identity `"A"` enqueued twice (ratings 1000 then 1100,
both HUMAN at `t = 0`): the code has no already-queued check, so `"A"`
occupies the buckets 1000 and 1100 simultaneously. -/
def state_c3 : ServiceState :=
  (queue_player (queue_player empty_state ⟨"A", 1000, OpponentType.human, 0, 3000⟩ 0).1
    ⟨"A", 1100, OpponentType.human, 0, 3000⟩ 0).1

/-- The tick of `_match_players` over the HUMAN queue of `state_c3`,
run at `t = 0`. -/
def tick_c3 : List (ℤ × QueuedPlayer) × List (String × ℤ) × List Decision :=
  match_players 0 OpponentType.human state_c3.human_queue state_c3.player_lookup

/-- State with `"alice"` (1000, HUMAN) and `"bob"` (960, SYNTHETIC/AI) both
enqueued at `t = 0`; 1000 and 960 share the bucket key 1000 across the two
different queues. -/
def state_c5 : ServiceState :=
  (queue_player (queue_player empty_state ⟨"alice", 1000, OpponentType.human, 0, 3000⟩ 0).1
    ⟨"bob", 960, OpponentType.ai, 0, 3000⟩ 0).1

/-- State with only `"alice"` (1000, HUMAN) enqueued at `t = 0`. -/
def state_c5w : ServiceState :=
  (queue_player empty_state ⟨"alice", 1000, OpponentType.human, 0, 3000⟩ 0).1

/-- Registry after two `_create_match` calls that happen inside the same
wall-clock millisecond (time 123456 ms): alice/bob first, then
carol/dave. -/
def games_c6 : List (ℕ × MatchResult) :=
  create_match
    (create_match [] ⟨"alice", 1000, OpponentType.human, 0, 0, 3000⟩
      ⟨"bob", 1100, OpponentType.human, 0, 0, 3000⟩ false none 123456)
    ⟨"carol", 1200, OpponentType.human, 0, 0, 3000⟩
    ⟨"dave", 1300, OpponentType.human, 0, 0, 3000⟩ false none 123456

/-- State after `queue_player("A", 1000, HUMAN)` and
`queue_player("B", 1050, HUMAN)` at the same instant `t = 0`. -/
def state_c7 : ServiceState :=
  (queue_player (queue_player empty_state ⟨"A", 1000, OpponentType.human, 0, 3000⟩ 0).1
    ⟨"B", 1050, OpponentType.human, 0, 3000⟩ 0).1

/-- The tick of `_match_players` over the HUMAN queue of `state_c7`, run
one scheduler period later (`t = 2`). -/
def tick_c7 : List (ℤ × QueuedPlayer) × List (String × ℤ) × List Decision :=
  match_players 2 OpponentType.human state_c7.human_queue state_c7.player_lookup

/-- A two-entry HUMAN queue with distinct identities, used to witness the
per-tick no-reuse theorem. -/
def queue_c3w : List (ℤ × QueuedPlayer) :=
  [(1000, ⟨"xavier", 1000, OpponentType.human, 0, 0, 3000⟩),
   (1100, ⟨"yolanda", 1100, OpponentType.human, 0, 0, 3000⟩)]

/-!  Theorems.  First the bridges between the explicitly computable
rational operations and the library ones, then helper lemmas, then one
theorem (plus witness or counterexample where applicable) per claim. -/

theorem rat_floor_eq_floor (q : ℚ) : rat_floor q = ⌊q⌋ := by
  rw [rat_floor, Rat.floor_def]
  exact Int.fdiv_eq_ediv _ (Int.natCast_nonneg _)

theorem rat_ceil_eq_ceil (q : ℚ) : rat_ceil q = ⌈q⌉ := by
  rw [rat_ceil, rat_floor_eq_floor, Int.floor_neg, neg_neg]

theorem rat_sub_eq (a b : ℚ) : rat_sub a b = a - b := (Rat.sub_def' a b).symm

theorem rat_div10_eq (a : ℚ) : rat_div10 a = a / 10 := by
  rw [rat_div10, Rat.divInt_eq_div]
  push_cast
  conv_rhs => rw [← Rat.num_div_den a, div_div]

theorem rat_div100_eq (n : ℤ) : rat_div100 n = (n : ℚ) / 100 := by
  rw [rat_div100, Rat.divInt_eq_div]; norm_num

theorem find_bot_level_bounds (elo : ℤ) :
    1 ≤ find_bot_level elo ∧ find_bot_level elo ≤ 10 := by
  rw [find_bot_level]
  exact ⟨le_max_left _ _, max_le (by norm_num) (min_le_left _ _)⟩

theorem bot_configs_key_isSome (l : ℤ) (h1 : 1 ≤ l) (h2 : l ≤ 10) :
    (dict_get? bot_configs l).isSome = true := by
  interval_cases l <;> decide

/-- C1: the claimed invariant — every identity in `player_lookup` is the
stored waiter of exactly one queue and vice versa — is broken by the code:
after enqueuing playerA (1000, HUMAN) and playerB (1040, HUMAN), whose
ratings share the bucket 1000, playerA is still in `player_lookup` but is
the stored waiter of no queue (playerB's insert silently overwrote the
entry). -/
theorem c1_code_bug_lookup_queue_inconsistent :
    dict_get? state_c1.player_lookup "playerA" = some 1000 ∧
    state_c1.human_queue.map (fun e => e.2.player_address) = ["playerB"] ∧
    state_c1.ai_queue = [] ∧ state_c1.any_queue = [] := by decide

/-- C2: enqueuing p2 with rating 1000 while p1 (rating 1000, same bucket,
same HUMAN queue) is waiting does not fail with `DuplicateBucket`: it
reports a successful `QueueStatus` and silently replaces p1's entry, and
p1 does not remain in the queue (only in `player_lookup`). -/
theorem c2_code_bug_no_duplicate_bucket_rejection :
    enqueue_c2.2.is_queued = true ∧
    enqueue_c2.1.human_queue.map (fun e => e.2.player_address) = ["p2"] ∧
    dict_get? enqueue_c2.1.player_lookup "p1" = some 1000 := by decide

/-- C3 counterexample: from the reachable queue state in which the single
identity "A" was enqueued twice (the code never rejects a duplicate
enqueue), one tick of `_match_players` produces a pairing decision that
references the identity "A" on both sides, refuting the claim that a tick
never produces a decision referencing the same identity twice. -/
theorem c3_counterexample_self_pairing :
    tick_c3.2.2.map decision_addrs = [["A", "A"]] := by decide

/-- C4: `queue_player` never fails with `DuplicateEnqueue` — it reports a
successful `QueueStatus` on every input, in particular when the same
identity "dup" is enqueued a second time while already queued. -/
theorem c4_code_bug_duplicate_enqueue_succeeds :
    (∀ (s : ServiceState) (req : MatchmakingRequest) (now : ℚ),
      (queue_player s req now).2.is_queued = true) ∧
    (queue_player
      (queue_player empty_state ⟨"dup", 1000, OpponentType.human, 0, 3000⟩ 0).1
      ⟨"dup", 1000, OpponentType.human, 0, 3000⟩ 5).2.is_queued = true := by
  exact ⟨fun s req now => rfl, rfl⟩

/-- C5 counterexample: cancel does not remove only the canceling player's
own entry.  With alice (1000, HUMAN) and bob (960, SYNTHETIC) queued —
their ratings share the bucket key 1000 — `cancel_queue "alice"` also
destroys bob's entry in the AI queue (while bob stays in `player_lookup`),
refuting the frame part of the claim. -/
theorem c5_counterexample_cancel_clobbers_other_queue :
    state_c5.ai_queue.map (fun e => e.2.player_address) = ["bob"] ∧
    (cancel_queue state_c5 "alice").2 = true ∧
    (cancel_queue state_c5 "alice").1.ai_queue = [] ∧
    dict_get? (cancel_queue state_c5 "alice").1.player_lookup "bob" = some 1000 := by
  decide

/-- C6: session ids are not unique across live sessions.  Two
`_create_match` calls within the same wall-clock millisecond (123456)
produce the same `generate_game_id`, and the second registry write
replaces the first: afterwards `active_games` holds a single entry — the
carol/dave pairing — and the alice/bob pairing is lost, refuting both the
distinct-ids and the recorded-before-the-tick-returns parts of the claim. -/
theorem c6_code_bug_game_id_collision :
    games_c6.length = 1 ∧
    games_c6.map Prod.fst = [generate_game_id 123456] ∧
    games_c6.map (fun e => (e.2.player1, e.2.player2)) = [("dave", "carol")] := by
  decide

/-- C7 counterexample: with A (1000, HUMAN) and B (1050, HUMAN) enqueued at
the same instant, the tick two seconds later produces no pairing decision
at all, and B is still in the HUMAN queue — refuting the claim that both
players are removed and a decision linking them exists. -/
theorem c7_counterexample_no_pairing :
    tick_c7.2.2 = [] ∧
    tick_c7.1.map (fun e => e.2.player_address) = ["B"] := by decide

/-- C7 amended: 1000 and 1050 both round to the bucket key 1000
(round-half-to-even sends 10.5 to 10), so B's enqueue silently overwrites
A's entry; the tick then sees only B, produces no decision, removes
nobody, and A's identity survives only in `player_lookup`. -/
theorem c7_amended_bucket_collision_blocks_pairing :
    elo_bucket 1000 = 1000 ∧ elo_bucket 1050 = 1000 ∧
    state_c7.human_queue.map (fun e => e.2.player_address) = ["B"] ∧
    tick_c7.2.2 = [] ∧
    dict_get? tick_c7.2.1 "A" = some 1000 := by decide

/-- C8: the expanded rating range of `_match_players` equals the spec's
`base_range + max(0, floor((wait − 30) / 10)) * 50` formula for every wait
time, and is monotonically non-decreasing in the wait time. -/
theorem c8_expanded_range_formula_and_monotone :
    (∀ w : ℚ, expanded_range w = spec_expanded_range w) ∧
    (∀ w1 w2 : ℚ, w1 ≤ w2 → expanded_range w1 ≤ expanded_range w2) := by
  have key : ∀ w : ℚ, expanded_range w = spec_expanded_range w := by
    intro w
    unfold expanded_range spec_expanded_range
    simp only [rat_sub_eq, rat_div10_eq, MAX_WAIT_EXPAND_TIME, ELO_RANGE, ELO_EXPAND_RATE]
    by_cases h : (30:ℚ) < w
    · rw [if_pos h]
      have h0 : (0:ℚ) ≤ (w - 30) / 10 := div_nonneg (by linarith) (by norm_num)
      rw [py_int, if_pos h0, rat_floor_eq_floor]
      have h1 : (0:ℤ) ≤ ⌊(w - 30) / 10⌋ := Int.le_floor.mpr (by exact_mod_cast h0)
      rw [max_eq_right h1]
    · rw [if_neg h]
      have hw : w ≤ 30 := le_of_not_lt h
      have h1 : (w - 30) / 10 ≤ 0 := by
        have h10 : (w - 30) / 10 * 10 = w - 30 :=
          div_mul_cancel₀ _ (by norm_num : (10:ℚ) ≠ 0)
        linarith
      have h2 : ⌊(w - 30) / 10⌋ ≤ 0 := by
        have := Int.floor_mono h1
        simpa using this
      rw [max_eq_left h2]
      norm_num
  refine ⟨key, fun w1 w2 hw => ?_⟩
  rw [key w1, key w2]
  unfold spec_expanded_range
  have h1 : (w1 - 30) / 10 ≤ (w2 - 30) / 10 := by
    have e1 : (w1 - 30) / 10 * 10 = w1 - 30 :=
      div_mul_cancel₀ _ (by norm_num : (10:ℚ) ≠ 0)
    have e2 : (w2 - 30) / 10 * 10 = w2 - 30 :=
      div_mul_cancel₀ _ (by norm_num : (10:ℚ) ≠ 0)
    linarith
  have h2 := Int.floor_mono h1
  have h3 : max 0 ⌊(w1 - 30) / 10⌋ ≤ max 0 ⌊(w2 - 30) / 10⌋ := max_le_max le_rfl h2
  linarith

/-- C8 witness: the formula and monotonicity theorem applied at the
concrete wait times 45 and 55 seconds. -/
theorem c8_witness :
    expanded_range 45 = spec_expanded_range 45 ∧ expanded_range 45 ≤ expanded_range 55 :=
  ⟨c8_expanded_range_formula_and_monotone.1 45,
   c8_expanded_range_formula_and_monotone.2 45 55 (by norm_num)⟩

/-- C9: `_find_bot_level` computes the clamped linear transform
`clamp(1, 10, (rating − 200) // 200 + 1)` and its result always lies
between 1 and 10 inclusive. -/
theorem c9_find_bot_level_clamped :
    ∀ elo : ℤ, find_bot_level elo = clamp_spec 1 10 ((elo - 200).fdiv 200 + 1) ∧
      1 ≤ find_bot_level elo ∧ find_bot_level elo ≤ 10 :=
  fun elo => ⟨rfl, (find_bot_level_bounds elo).1, (find_bot_level_bounds elo).2⟩

/-- C10: the bot configuration table has exactly the keys 1 through 10,
and creating a synthetic-opponent match never fails on the catalog
lookup, whatever the player's integer rating. -/
theorem c10_bot_catalog_lookup_total :
    bot_configs.map Prod.fst = [1, 2, 3, 4, 5, 6, 7, 8, 9, 10] ∧
    ∀ (games : List (ℕ × MatchResult)) (p : QueuedPlayer) (now_ms : ℕ),
      (create_bot_match games p now_ms).isSome = true := by
  refine ⟨by decide, fun games p now_ms => ?_⟩
  have h := bot_configs_key_isSome (find_bot_level p.elo)
    (find_bot_level_bounds p.elo).1 (find_bot_level_bounds p.elo).2
  unfold create_bot_match
  cases hk : dict_get? bot_configs (find_bot_level p.elo) with
  | none => rw [hk] at h; simp at h
  | some cfg => rfl

theorem dict_get?_dict_pop_self {α β : Type} [DecidableEq α] (d : List (α × β)) (k : α) :
    dict_get? (dict_pop d k) k = none := by
  induction d with
  | nil => rfl
  | cons hd tl ih =>
    by_cases h : hd.1 = k
    · rw [dict_pop, List.filter_cons, if_neg (by simp [h])]
      exact ih
    · rw [dict_pop, List.filter_cons, if_pos (by simp [h])]
      simp only [dict_get?]
      rw [List.find?_cons_of_neg _ (by simp [h])]
      exact ih

theorem dict_get?_dict_pop_ne {α β : Type} [DecidableEq α] (d : List (α × β)) {k k' : α}
    (h : k' ≠ k) : dict_get? (dict_pop d k) k' = dict_get? d k' := by
  induction d with
  | nil => rfl
  | cons hd tl ih =>
    by_cases hh : hd.1 = k
    · rw [dict_pop, List.filter_cons, if_neg (by simp [hh])]
      have hr : dict_get? (hd :: tl) k' = dict_get? tl k' := by
        simp only [dict_get?]
        rw [List.find?_cons_of_neg _ (by simp [hh]; intro heq; exact h heq.symm)]
      rw [hr]
      exact ih
    · rw [dict_pop, List.filter_cons, if_pos (by simp [hh])]
      by_cases hk' : hd.1 = k'
      · simp only [dict_get?]
        rw [List.find?_cons_of_pos _ (by simp [hk']), List.find?_cons_of_pos _ (by simp [hk'])]
      · simp only [dict_get?]
        rw [List.find?_cons_of_neg _ (by simp [hk']), List.find?_cons_of_neg _ (by simp [hk'])]
        exact ih

/-- C5 amended: `cancel_queue` for a queued identity returns true and
removes every entry stored under that identity's recorded bucket key in
all three queues (which may include another player's entry in a different
category sharing the key); entries under any other bucket key are
unchanged, every other identity's `player_lookup` entry is unchanged, and
an immediately repeated cancel returns false without error. -/
theorem c5_amended_cancel_bucket_frame (s : ServiceState) (addr : String) (b : ℤ)
    (h : dict_get? s.player_lookup addr = some b) :
    (cancel_queue s addr).2 = true ∧
    dict_get? (cancel_queue s addr).1.human_queue b = none ∧
    dict_get? (cancel_queue s addr).1.ai_queue b = none ∧
    dict_get? (cancel_queue s addr).1.any_queue b = none ∧
    (∀ k : ℤ, k ≠ b →
      dict_get? (cancel_queue s addr).1.human_queue k = dict_get? s.human_queue k ∧
      dict_get? (cancel_queue s addr).1.ai_queue k = dict_get? s.ai_queue k ∧
      dict_get? (cancel_queue s addr).1.any_queue k = dict_get? s.any_queue k) ∧
    dict_get? (cancel_queue s addr).1.player_lookup addr = none ∧
    (∀ a : String, a ≠ addr →
      dict_get? (cancel_queue s addr).1.player_lookup a = dict_get? s.player_lookup a) ∧
    (cancel_queue (cancel_queue s addr).1 addr).2 = false := by
  have hc : cancel_queue s addr =
      ({ human_queue := dict_pop s.human_queue b,
         ai_queue := dict_pop s.ai_queue b,
         any_queue := dict_pop s.any_queue b,
         player_lookup := dict_pop s.player_lookup addr,
         active_games := s.active_games }, true) := by
    unfold cancel_queue
    rw [h]
  rw [hc]
  refine ⟨rfl, dict_get?_dict_pop_self _ _, dict_get?_dict_pop_self _ _,
    dict_get?_dict_pop_self _ _,
    fun k hk => ⟨dict_get?_dict_pop_ne _ hk, dict_get?_dict_pop_ne _ hk,
      dict_get?_dict_pop_ne _ hk⟩,
    dict_get?_dict_pop_self _ _,
    fun a ha => dict_get?_dict_pop_ne _ ha, ?_⟩
  unfold cancel_queue
  dsimp only
  rw [dict_get?_dict_pop_self s.player_lookup addr]

/-- C5 witness: the amended cancel theorem applied to the state holding
only alice: her cancel returns true, and canceling again returns false. -/
theorem c5_amended_witness :
    (cancel_queue state_c5w "alice").2 = true ∧
    (cancel_queue (cancel_queue state_c5w "alice").1 "alice").2 = false := by
  have h := c5_amended_cancel_bucket_frame state_c5w "alice" 1000 (by decide)
  exact ⟨h.1, h.2.2.2.2.2.2.2⟩

theorem consumed_waiters_append (ds es : List Decision) :
    consumed_waiters (ds ++ es) = consumed_waiters ds ++ consumed_waiters es := by
  induction ds with
  | nil => rfl
  | cons d tl ih => cases d <;> simp [consumed_waiters, ih]

theorem match_players_go_spec (now : ℚ) (qt : OpponentType) (L : List QueuedPlayer) :
    ∀ (rest to_remove : List QueuedPlayer) (acc : List Decision),
      to_remove = consumed_waiters acc →
      (∀ x ∈ to_remove, x ∈ L) →
      (∀ x ∈ rest, x ∈ L) →
      to_remove.Nodup →
      (match_players_go now qt L rest to_remove acc).1 =
        consumed_waiters (match_players_go now qt L rest to_remove acc).2 ∧
      (∀ x ∈ (match_players_go now qt L rest to_remove acc).1, x ∈ L) ∧
      (match_players_go now qt L rest to_remove acc).1.Nodup := by
  intro rest
  induction rest with
  | nil =>
    intro tr acc h1 h2 _ h4
    simp only [match_players_go]
    exact ⟨h1, h2, h4⟩
  | cons p rest ih =>
    intro tr acc h1 h2 h3 h4
    have hpL : p ∈ L := h3 p (List.mem_cons_self p rest)
    have hrest : ∀ x ∈ rest, x ∈ L := fun x hx => h3 x (List.mem_cons_of_mem p hx)
    simp only [match_players_go]
    by_cases hp : p ∈ tr
    · rw [if_pos hp]
      exact ih tr acc h1 h2 hrest h4
    · rw [if_neg hp]
      cases hfind : L.find? (partner_ok now tr p) with
      | some q =>
        have hqL : q ∈ L := List.mem_of_find?_eq_some hfind
        have hq0 := List.find?_some hfind
        simp only [partner_ok, decide_eq_true_eq] at hq0
        obtain ⟨hqp, hqtr, _⟩ := hq0
        have e1 : tr ++ [p, q] = consumed_waiters (acc ++ [Decision.humanPair p q]) := by
          rw [consumed_waiters_append, ← h1]
          rfl
        have e2 : ∀ x ∈ tr ++ [p, q], x ∈ L := by
          intro x hx
          rcases List.mem_append.1 hx with hx | hx
          · exact h2 x hx
          · simp only [List.mem_cons, List.mem_singleton, List.not_mem_nil, or_false] at hx
            rcases hx with rfl | rfl
            · exact hpL
            · exact hqL
        have e3 : (tr ++ [p, q]).Nodup := by
          rw [List.nodup_append]
          refine ⟨h4, ?_, ?_⟩
          · refine List.nodup_cons.mpr ⟨?_, List.nodup_singleton q⟩
            simp only [List.mem_singleton]
            intro hpq
            exact hqp hpq.symm
          · rw [List.disjoint_left]
            intro a ha hc
            simp only [List.mem_cons, List.mem_singleton, List.not_mem_nil, or_false] at hc
            rcases hc with rfl | rfl
            · exact hp ha
            · exact hqtr ha
        exact ih (tr ++ [p, q]) (acc ++ [Decision.humanPair p q]) e1 e2 hrest e3
      | none =>
        by_cases hany : qt = OpponentType.any ∧ 10 < rat_sub now p.queued_at
        · rw [if_pos hany]
          have e1 : tr ++ [p] =
              consumed_waiters (acc ++ [Decision.botPair p (find_bot_level p.elo)]) := by
            rw [consumed_waiters_append, ← h1]
            rfl
          have e2 : ∀ x ∈ tr ++ [p], x ∈ L := by
            intro x hx
            rcases List.mem_append.1 hx with hx | hx
            · exact h2 x hx
            · simp only [List.mem_singleton] at hx
              subst hx
              exact hpL
          have e3 : (tr ++ [p]).Nodup := by
            rw [List.nodup_append]
            refine ⟨h4, List.nodup_singleton p, ?_⟩
            rw [List.disjoint_left]
            intro a ha hc
            simp only [List.mem_singleton] at hc
            subst hc
            exact hp ha
          exact ih (tr ++ [p]) (acc ++ [Decision.botPair p (find_bot_level p.elo)]) e1 e2 hrest e3
        · rw [if_neg hany]
          exact ih tr acc h1 h2 hrest h4

/-- C3 amended: provided the queue's stored waiters carry pairwise distinct
identities (which the enqueue path does not itself guarantee — see C4), a
single invocation of `_match_players` never produces a decision that
references the same identity twice and never consumes a waiter already
consumed earlier in the same tick: the identities consumed across all of
the tick's decisions are pairwise distinct. -/
theorem c3_amended_no_reuse (now : ℚ) (qt : OpponentType)
    (queue : List (ℤ × QueuedPlayer)) (lookup : List (String × ℤ))
    (h : ((queue.map Prod.snd).map (fun p => p.player_address)).Nodup) :
    ((consumed_waiters (match_players now qt queue lookup).2.2).map
      (fun p => p.player_address)).Nodup := by
  obtain ⟨h1, h2, h3⟩ := match_players_go_spec now qt (queue.map Prod.snd)
    (queue.map Prod.snd) [] [] rfl (by simp) (fun x hx => hx) List.nodup_nil
  have hdecs : (match_players now qt queue lookup).2.2 =
      (match_players_go now qt (queue.map Prod.snd) (queue.map Prod.snd) [] []).2 := rfl
  rw [hdecs, ← h1]
  exact List.Nodup.map_on
    (fun x hx y hy hxy => List.inj_on_of_nodup_map h (h2 x hx) (h2 y hy) hxy) h3

/-- C3 witness: the amended no-reuse theorem applied to a two-waiter HUMAN
queue with the distinct identities xavier and yolanda. -/
theorem c3_amended_witness :
    ((consumed_waiters (match_players 0 OpponentType.human queue_c3w
      [("xavier", 1000), ("yolanda", 1100)]).2.2).map
      (fun p => p.player_address)).Nodup :=
  c3_amended_no_reuse 0 OpponentType.human queue_c3w
    [("xavier", 1000), ("yolanda", 1100)] (by decide)

end GambitEngine
